import Mathlib

/-!
Shallow embedding of `src/consumers/consumer_sahoward.py`.

The module manages a SQLite database with a single table `streamed_messages`
(`id INTEGER PRIMARY KEY AUTOINCREMENT, message, author, timestamp, category,
sentiment REAL, keyword_mentioned, message_length`).  We model:

* the filesystem as the set of existing directories (needed for
  `os.makedirs` and `sqlite3.connect`),
* the database as an optional table (absent until `CREATE TABLE` ran),
* the table as its AUTOINCREMENT counter plus the rows in insertion order,
* SQLite REAL values as exact rationals `ℚ`,
* an incoming Python dict as a record of optional fields (a missing key
  raises `KeyError`),
* each Python function body inside its `try:` block as an `Except` program,
  and the function itself as the total function obtained from catching every
  exception and reporting it to the logger sink (the second component of the
  result is the error handed to `logger.error`, `none` on success).
-/

/-- A directory path, as its list of components. -/
abbrev DirPath := List String

/-- The `db_path` argument: parent directory components plus file name
(`dirs = []` models a bare file name, whose `os.path.dirname` is `""`). -/
structure DBPath where
  dirs : DirPath
  fname : String
deriving DecidableEq

/-- One stored row of `streamed_messages`. -/
structure Row where
  id : Nat
  message : String
  author : String
  timestamp : String
  category : String
  sentiment : ℚ
  keyword_mentioned : String
  message_length : Nat
deriving DecidableEq

/-- The `streamed_messages` table: the AUTOINCREMENT counter (next id to be
assigned; SQLite AUTOINCREMENT never reuses an id, even after deletes) and
the rows in insertion order. -/
structure Table where
  nextId : Nat
  rows : List Row
deriving DecidableEq

/-- System state: the directories that exist on disk, and the
`streamed_messages` table when it has been created (`none` when the database
file is missing or holds no such table). -/
structure Sys where
  fs : List DirPath
  table : Option Table
deriving DecidableEq

/-- An incoming message dict.  Each field is `none` when the key is absent,
in which case the subscript `message[...]` in the source raises `KeyError`. -/
structure RawMessage where
  message : Option String
  author : Option String
  timestamp : Option String
  category : Option String
  sentiment : Option ℚ
  keyword_mentioned : Option String
  message_length : Option Nat
deriving DecidableEq

/-- The exceptions the bodies can raise: `os.makedirs("")` raising
`FileNotFoundError`, `sqlite3.connect` failing because the parent directory
does not exist, a `KeyError` on a missing dict key, and SQLite's
`no such table` error. -/
inductive SqlErr
  | fileNotFound
  | cannotConnect
  | keyError (field : String)
  | noSuchTable
deriving DecidableEq

/-- `os.makedirs(os.path.dirname(db_path), exist_ok=True)`: for a path with a
parent directory it creates every missing ancestor (and succeeds when they
already exist); for a bare file name `os.path.dirname` is `""` and
`os.makedirs("")` raises `FileNotFoundError`. -/
def makedirs (p : DBPath) (s : Sys) : Except SqlErr Sys :=
  if p.dirs = [] then .error .fileNotFound
  else .ok { s with fs := (List.range p.dirs.length).map (fun k => p.dirs.take (k + 1)) ++ s.fs }

/-- `sqlite3.connect(db_path)`: succeeds when the parent directory exists (a
bare file name resolves against the working directory); opening creates the
database file, not the table, so the state component we track is unchanged. -/
def connect (p : DBPath) (s : Sys) : Except SqlErr Sys :=
  if p.dirs = [] ∨ p.dirs ∈ s.fs then .ok s else .error .cannotConnect

/-- Body of the `try:` block of `init_db`: ensure the directories exist,
connect, `DROP TABLE IF EXISTS streamed_messages`, then
`CREATE TABLE IF NOT EXISTS streamed_messages (id INTEGER PRIMARY KEY
AUTOINCREMENT, ...)`; dropping the table also clears its AUTOINCREMENT
sequence, so the recreated table assigns ids from 1 again. -/
def init_db_body (p : DBPath) (s : Sys) : Except SqlErr Sys :=
  match makedirs p s with
  | .error e => .error e
  | .ok s1 =>
    match connect p s1 with
    | .error e => .error e
    | .ok s2 => .ok { { s2 with table := none } with table := some { nextId := 1, rows := [] } }

/-- `init_db`: runs the body and catches every exception, logging it; the
pair's second component is the error reported to `logger.error` (`none` when
the body succeeded). -/
def init_db (p : DBPath) (s : Sys) : Sys × Option SqlErr :=
  match init_db_body p s with
  | .ok s2 => (s2, none)
  | .error e => (s, some e)

/-- `message[name]`: dict subscript, raising `KeyError` when the key is
absent. -/
def getField {α : Type} (v : Option α) (name : String) : Except SqlErr α :=
  match v with
  | some x => .ok x
  | none => .error (.keyError name)

/-- The parameter tuple of the `INSERT` statement: the seven dict subscripts
of the source, evaluated left to right, so the first missing key determines
the `KeyError`. -/
structure Params where
  message : String
  author : String
  timestamp : String
  category : String
  sentiment : ℚ
  keyword_mentioned : String
  message_length : Nat
deriving DecidableEq

/-- Building the parameter tuple `(message["message"], ..., message["message_length"])`;
Python evaluates it before `cursor.execute` runs, so a missing key aborts
before any write. -/
def buildParams (m : RawMessage) : Except SqlErr Params :=
  match getField m.message "message" with
  | .error e => .error e
  | .ok msg =>
    match getField m.author "author" with
    | .error e => .error e
    | .ok auth =>
      match getField m.timestamp "timestamp" with
      | .error e => .error e
      | .ok ts =>
        match getField m.category "category" with
        | .error e => .error e
        | .ok cat =>
          match getField m.sentiment "sentiment" with
          | .error e => .error e
          | .ok sent =>
            match getField m.keyword_mentioned "keyword_mentioned" with
            | .error e => .error e
            | .ok kw =>
              match getField m.message_length "message_length" with
              | .error e => .error e
              | .ok len =>
                .ok { message := msg, author := auth, timestamp := ts, category := cat,
                      sentiment := sent, keyword_mentioned := kw, message_length := len }

/-- The row appended by the `INSERT`: the next AUTOINCREMENT id plus the
seven supplied values. -/
def rowOf (n : Nat) (v : Params) : Row :=
  { id := n, message := v.message, author := v.author, timestamp := v.timestamp,
    category := v.category, sentiment := v.sentiment, keyword_mentioned := v.keyword_mentioned,
    message_length := v.message_length }

/-- Body of the `try:` block of `insert_message`: connect, build the
parameter tuple, then execute the
`INSERT INTO streamed_messages ... VALUES (?, ?, ?, ?, ?, ?, ?)`, which
fails when the table does not exist and otherwise appends one row with the
next AUTOINCREMENT id. -/
def insert_message_body (m : RawMessage) (p : DBPath) (s : Sys) : Except SqlErr Sys :=
  match connect p s with
  | .error e => .error e
  | .ok s1 =>
    match buildParams m with
    | .error e => .error e
    | .ok v =>
      match s1.table with
      | none => .error .noSuchTable
      | some t =>
        .ok { s1 with
              table := some { nextId := t.nextId + 1, rows := t.rows ++ [rowOf t.nextId v] } }

/-- `insert_message`: runs the body and catches every exception, logging it. -/
def insert_message (m : RawMessage) (p : DBPath) (s : Sys) : Sys × Option SqlErr :=
  match insert_message_body m p s with
  | .ok s2 => (s2, none)
  | .error e => (s, some e)

/-- Body of the `try:` block of `delete_message`: connect, then
`DELETE FROM streamed_messages WHERE id = ?`, which fails when the table does
not exist and otherwise removes exactly the rows with the given id. -/
def delete_message_body (mid : Nat) (p : DBPath) (s : Sys) : Except SqlErr Sys :=
  match connect p s with
  | .error e => .error e
  | .ok s1 =>
    match s1.table with
    | none => .error .noSuchTable
    | some t =>
      .ok { s1 with table := some { t with rows := t.rows.filter (fun r => r.id ≠ mid) } }

/-- `delete_message`: runs the body and catches every exception, logging it. -/
def delete_message (mid : Nat) (p : DBPath) (s : Sys) : Sys × Option SqlErr :=
  match delete_message_body mid p s with
  | .ok s2 => (s2, none)
  | .error e => (s, some e)

/-- The rows of `streamed_messages` in a state (no rows when the table does
not exist). -/
def Sys.rows (s : Sys) : List Row :=
  (s.table.map Table.rows).getD []

/-- The distinct authors of the stored rows (`GROUP BY author`). -/
def authorsOf (rows : List Row) : List String :=
  (rows.map Row.author).dedup

/-- `AVG(sentiment)` for one author: the arithmetic mean of `sentiment` over
that author's rows. -/
def avgSentiment (rows : List Row) (a : String) : ℚ :=
  let sents := (rows.filter (fun r => r.author = a)).map Row.sentiment
  sents.sum / sents.length

/-- `COUNT` of one author's rows. -/
def countAuthor (rows : List Row) (a : String) : Nat :=
  (rows.filter (fun r => r.author = a)).length

/-- The result sets allowed by the query of `get_average_sentiment_by_author`
(`SELECT author, AVG(sentiment) FROM streamed_messages GROUP BY author
ORDER BY average_sentiment DESC`): one pair per distinct author carrying that
author's average, in any order whose averages are non-increasing — SQL
leaves the relative order of rows with equal `ORDER BY` keys unspecified. -/
def validReport (rows : List Row) (out : List (String × ℚ)) : Prop :=
  (out.map Prod.fst).Perm (authorsOf rows) ∧
  (∀ pr ∈ out, pr.2 = avgSentiment rows pr.1) ∧
  out.Pairwise (fun x y => y.2 ≤ x.2)

instance (rows : List Row) (out : List (String × ℚ)) : Decidable (validReport rows out) := by
  unfold validReport
  infer_instance

/-- A fully populated message for author `a` with sentiment `q`, as produced
by the demo producer: all seven keys present. -/
def mkRaw (a : String) (q : ℚ) : RawMessage :=
  { message := some "", author := some a, timestamp := some "", category := some "",
    sentiment := some q, keyword_mentioned := some "", message_length := some 0 }

/-- Feeding a sequence of messages through `insert_message`, as the ingestion
loop does, keeping only the state. -/
def insertAll (p : DBPath) (msgs : List RawMessage) (s : Sys) : Sys :=
  msgs.foldl (fun st m => (insert_message m p st).1) s

/-- The row stored for a `mkRaw a q` message when it receives id `n`. -/
def mkRow (n : Nat) (a : String) (q : ℚ) : Row :=
  { id := n, message := "", author := a, timestamp := "", category := "", sentiment := q,
    keyword_mentioned := "", message_length := 0 }

/-- The rows produced by inserting sentiments `qs` for author `a`, ids
starting at `n`. -/
def rowsFrom (n : Nat) (a : String) : List ℚ → List Row
  | [] => []
  | q :: qs => mkRow n a q :: rowsFrom (n + 1) a qs

/-- Well-formedness of the table: every stored id is below the AUTOINCREMENT
counter and the ids are strictly increasing in insertion order. -/
def Table.WF (t : Table) : Prop :=
  (∀ r ∈ t.rows, r.id < t.nextId) ∧ t.rows.Pairwise (fun r1 r2 => r1.id < r2.id)

/-- Well-formedness of a state: its table, when present, is well-formed. -/
def Sys.WF (s : Sys) : Prop :=
  ∀ t, s.table = some t → t.WF

/-- The `db_path` used by the demo `main`: a data directory plus file name. -/
def demoPath : DBPath := { dirs := ["data"], fname := "buzz.sqlite" }

/-- The end-to-end scenario state: from a fresh machine, `init_db` followed by
inserting (Alice, 0.2), (Bob, 0.8), (Alice, 0.6) in that order. -/
def scenarioSys : Sys :=
  insertAll demoPath
    [mkRaw "Alice" (1/5), mkRaw "Bob" (4/5), mkRaw "Alice" (3/5)]
    (init_db demoPath { fs := [], table := none }).1

/-- Two stored rows by distinct authors with equal sentiment (a tie in the
report's `ORDER BY` key). -/
def tieRows : List Row :=
  [mkRow 1 "Alice" 1, mkRow 2 "Bob" 1]

/-- A report output for `tieRows` that orders the tied authors by author
descending. -/
def tieOut : List (String × ℚ) :=
  [("Bob", avgSentiment tieRows "Bob"), ("Alice", avgSentiment tieRows "Alice")]

/-- The order the claim asks of the report: strictly descending averages, a
tie broken by author ascending. -/
def tieAsc (out : List (String × ℚ)) : Prop :=
  out.Pairwise (fun x y => y.2 < x.2 ∨ (x.2 = y.2 ∧ x.1 < y.1))

/-! ### Helper lemmas -/

theorem connect_ok {p : DBPath} {s : Sys} (h : p.dirs = [] ∨ p.dirs ∈ s.fs) :
    connect p s = .ok s := by
  simp [connect, h]

theorem init_db_ok (p : DBPath) (s : Sys) (hp : p.dirs ≠ []) :
    init_db p s =
      ({ fs := (List.range p.dirs.length).map (fun k => p.dirs.take (k + 1)) ++ s.fs,
         table := some { nextId := 1, rows := [] } }, none) := by
  have hmem : p.dirs ∈ (List.range p.dirs.length).map (fun k => p.dirs.take (k + 1)) ++ s.fs := by
    refine List.mem_append_left _ (List.mem_map.mpr ⟨p.dirs.length - 1, ?_, ?_⟩)
    · exact List.mem_range.mpr (Nat.sub_lt (List.length_pos.mpr hp) one_pos)
    · rw [Nat.sub_add_cancel (Nat.one_le_iff_ne_zero.mpr (by simpa using hp))]
      simp
  simp [init_db, init_db_body, makedirs, hp, connect, hmem]

theorem buildParams_mkRaw (a : String) (q : ℚ) :
    buildParams (mkRaw a q) =
      .ok { message := "", author := a, timestamp := "", category := "", sentiment := q,
            keyword_mentioned := "", message_length := 0 } := rfl

theorem buildParams_missing {m : RawMessage} (h : m.sentiment = none) :
    ∃ f, buildParams m = .error (SqlErr.keyError f) := by
  unfold buildParams getField
  cases m.message with
  | none => exact ⟨"message", rfl⟩
  | some v1 =>
    cases m.author with
    | none => exact ⟨"author", rfl⟩
    | some v2 =>
      cases m.timestamp with
      | none => exact ⟨"timestamp", rfl⟩
      | some v3 =>
        cases m.category with
        | none => exact ⟨"category", rfl⟩
        | some v4 =>
          rw [h]
          exact ⟨"sentiment", rfl⟩

theorem insert_message_ok {m : RawMessage} {p : DBPath} {s : Sys} {t : Table} {v : Params}
    (hconn : p.dirs = [] ∨ p.dirs ∈ s.fs) (hs : s.table = some t)
    (hv : buildParams m = .ok v) :
    insert_message m p s =
      ({ s with table := some { nextId := t.nextId + 1, rows := t.rows ++ [rowOf t.nextId v] } },
       none) := by
  simp [insert_message, insert_message_body, connect_ok hconn, hv, hs]

theorem insert_message_err {m : RawMessage} {p : DBPath} {s : Sys} {e : SqlErr}
    (h : insert_message_body m p s = .error e) :
    insert_message m p s = (s, some e) := by
  simp [insert_message, h]

theorem insert_message_rows (m : RawMessage) (p : DBPath) (s : Sys) :
    ∃ tl, ((insert_message m p s).1).rows = s.rows ++ tl ∧ tl.length ≤ 1 := by
  by_cases hconn : p.dirs = [] ∨ p.dirs ∈ s.fs
  · cases hv : buildParams m with
    | error e =>
      refine ⟨[], ?_, by simp⟩
      simp [insert_message, insert_message_body, connect_ok hconn, hv]
    | ok v =>
      cases hs : s.table with
      | none =>
        refine ⟨[], ?_, by simp⟩
        simp [insert_message, insert_message_body, connect_ok hconn, hv, hs]
      | some t =>
        refine ⟨[rowOf t.nextId v], ?_, by simp⟩
        rw [insert_message_ok hconn hs hv]
        simp [Sys.rows, hs]
  · refine ⟨[], ?_, by simp⟩
    simp [insert_message, insert_message_body, connect, hconn]

theorem insert_message_wf {m : RawMessage} {p : DBPath} {s : Sys}
    (h : Sys.WF s) : Sys.WF ((insert_message m p s).1) := by
  by_cases hconn : p.dirs = [] ∨ p.dirs ∈ s.fs
  · cases hv : buildParams m with
    | error e =>
      simp [insert_message, insert_message_body, connect_ok hconn, hv]
      exact h
    | ok v =>
      cases hs : s.table with
      | none =>
        simp [insert_message, insert_message_body, connect_ok hconn, hv, hs]
        exact h
      | some t =>
        rw [insert_message_ok hconn hs hv]
        intro t2 ht2
        simp at ht2
        obtain ⟨hwf1, hwf2⟩ := h t hs
        subst ht2
        constructor
        · intro r hr
          simp [List.mem_append] at hr
          rcases hr with hr | hr
          · exact Nat.lt_succ_of_lt (hwf1 r hr)
          · simp [hr, rowOf]
        · rw [List.pairwise_append]
          refine ⟨hwf2, by simp, ?_⟩
          intro r1 hr1 r2 hr2
          simp at hr2
          simp [hr2, rowOf]
          exact hwf1 r1 hr1
  · simp [insert_message, insert_message_body, connect, hconn]
    exact h

theorem insertAll_wf {p : DBPath} {msgs : List RawMessage} {s : Sys}
    (h : Sys.WF s) : Sys.WF (insertAll p msgs s) := by
  induction msgs generalizing s with
  | nil => exact h
  | cons m ms ih =>
    exact ih (insert_message_wf h)

theorem rowsFrom_author (n : Nat) (a : String) (qs : List ℚ) :
    ∀ r ∈ rowsFrom n a qs, r.author = a := by
  induction qs generalizing n with
  | nil => simp [rowsFrom]
  | cons q qs ih =>
    intro r hr
    rw [rowsFrom] at hr
    rcases List.mem_cons.mp hr with hr | hr
    · simp [hr, mkRow]
    · exact ih (n + 1) r hr

theorem rowsFrom_sentiments (n : Nat) (a : String) (qs : List ℚ) :
    (rowsFrom n a qs).map Row.sentiment = qs := by
  induction qs generalizing n with
  | nil => simp [rowsFrom]
  | cons q qs ih =>
    simp [rowsFrom, mkRow, ih]

theorem rowsFrom_length (n : Nat) (a : String) (qs : List ℚ) :
    (rowsFrom n a qs).length = qs.length := by
  induction qs generalizing n with
  | nil => simp [rowsFrom]
  | cons q qs ih =>
    simp [rowsFrom, ih]

theorem insertAll_mkRaw_rows (a : String) (qs : List ℚ) (p : DBPath) (s : Sys) (t : Table)
    (hconn : p.dirs = [] ∨ p.dirs ∈ s.fs) (hs : s.table = some t) :
    (insertAll p (qs.map (mkRaw a)) s).rows = t.rows ++ rowsFrom t.nextId a qs := by
  induction qs generalizing s t with
  | nil =>
    simp [insertAll, rowsFrom, Sys.rows, hs]
  | cons q qs ih =>
    have hstep := insert_message_ok hconn hs (buildParams_mkRaw a q)
    have hrow : rowOf t.nextId
        { message := "", author := a, timestamp := "", category := "", sentiment := q,
          keyword_mentioned := "", message_length := 0 } = mkRow t.nextId a q := rfl
    rw [List.map_cons]
    show (insertAll p (List.map (mkRaw a) qs) ((insert_message (mkRaw a q) p s).1)).rows
        = t.rows ++ rowsFrom t.nextId a (q :: qs)
    rw [hstep]
    rw [ih { fs := s.fs, table := some { nextId := t.nextId + 1, rows := t.rows ++ [rowOf t.nextId
          { message := "", author := a, timestamp := "", category := "", sentiment := q,
            keyword_mentioned := "", message_length := 0 }] } }
        { nextId := t.nextId + 1, rows := t.rows ++ [rowOf t.nextId
          { message := "", author := a, timestamp := "", category := "", sentiment := q,
            keyword_mentioned := "", message_length := 0 }] } hconn rfl]
    simp [hrow, rowsFrom]

theorem avg_rowsFrom (n : Nat) (a : String) (qs : List ℚ) :
    avgSentiment (rowsFrom n a qs) a = qs.sum / qs.length := by
  unfold avgSentiment
  have hfil : (rowsFrom n a qs).filter (fun r => r.author = a) = rowsFrom n a qs := by
    rw [List.filter_eq_self]
    intro r hr
    simp [rowsFrom_author n a qs r hr]
  rw [hfil, rowsFrom_sentiments]

theorem mem_authorsOf_rowsFrom {n : Nat} {a : String} {qs : List ℚ} (h : qs ≠ []) :
    a ∈ authorsOf (rowsFrom n a qs) := by
  unfold authorsOf
  rw [List.mem_dedup]
  cases qs with
  | nil => exact absurd rfl h
  | cons q qs =>
    rw [rowsFrom]
    simp [mkRow]

/-- C1: after inserting N events for one author into a fresh database set up by init_db, every result set of the report query carries, for that author,
exactly the arithmetic mean of the N sentiments. -/
theorem C1_per_author_average (p : DBPath) (s0 : Sys) (a : String) (qs : List ℚ)
    (out : List (String × ℚ))
    (hp : p.dirs ≠ []) (hqs : qs ≠ [])
    (hout : validReport ((insertAll p (qs.map (mkRaw a)) (init_db p s0).1).rows) out) :
    (a, qs.sum / qs.length) ∈ out := by
  rw [init_db_ok p s0 hp] at hout
  have hmem : p.dirs ∈ (List.range p.dirs.length).map (fun k => p.dirs.take (k + 1)) ++ s0.fs := by
    refine List.mem_append_left _ (List.mem_map.mpr ⟨p.dirs.length - 1, ?_, ?_⟩)
    · exact List.mem_range.mpr (Nat.sub_lt (List.length_pos.mpr hp) one_pos)
    · rw [Nat.sub_add_cancel (Nat.one_le_iff_ne_zero.mpr (by simpa using hp))]
      simp
  have hrows := insertAll_mkRaw_rows a qs p
      { fs := (List.range p.dirs.length).map (fun k => p.dirs.take (k + 1)) ++ s0.fs,
        table := some { nextId := 1, rows := [] } }
      { nextId := 1, rows := [] } (Or.inr hmem) rfl
  rw [hrows] at hout
  rw [List.nil_append] at hout
  obtain ⟨hperm, havg, hsorted⟩ := hout
  have ha : a ∈ out.map Prod.fst := hperm.mem_iff.mpr (mem_authorsOf_rowsFrom hqs)
  obtain ⟨pr, hpr, hfst⟩ := List.mem_map.mp ha
  have h2 : pr.2 = qs.sum / qs.length := by
    rw [havg pr hpr, hfst, avg_rowsFrom]
  have : pr = (a, qs.sum / qs.length) := Prod.ext hfst h2
  exact this ▸ hpr

theorem C1_witness :
    (("Alice" : String), ([(1:ℚ)/2, 1] : List ℚ).sum / (([(1:ℚ)/2, 1] : List ℚ).length : ℚ)) ∈
      ([("Alice", (3:ℚ)/4)] : List (String × ℚ)) := by
  apply C1_per_author_average demoPath { fs := [], table := none } "Alice" [1/2, 1]
    [("Alice", (3:ℚ)/4)]
  · simp [demoPath]
  · simp
  · have hR : (insertAll demoPath (([(1:ℚ)/2, 1]).map (mkRaw "Alice"))
        (init_db demoPath { fs := [], table := none }).1).rows = rowsFrom 1 "Alice" [1/2, 1] := by
      rw [init_db_ok _ _ (by simp [demoPath])]
      rw [insertAll_mkRaw_rows "Alice" [1/2, 1] demoPath _ { nextId := 1, rows := [] }
        (Or.inr (by simp [demoPath])) rfl]
      simp
    rw [hR]
    refine ⟨?_, ?_, ?_⟩
    · have hA : authorsOf (rowsFrom 1 "Alice" [1/2, 1]) = ["Alice"] := by
        simp [rowsFrom, mkRow, authorsOf, List.dedup]
      rw [hA]
      simp
    · intro pr hpr
      simp at hpr
      rw [hpr]
      show (3:ℚ)/4 = avgSentiment (rowsFrom 1 "Alice" [1/2, 1]) "Alice"
      rw [avg_rowsFrom]
      norm_num
    · simp

/-- C2 (counterexample): on a state whose table already holds a row,
re-running `init_db` succeeds but leaves an empty table: the stored rows are
not preserved, because the body executes `DROP TABLE IF EXISTS` before the
`CREATE TABLE IF NOT EXISTS`. -/
theorem C2_counterexample :
    ((init_db demoPath
        { fs := [["data"]], table := some { nextId := 2, rows := [mkRow 1 "Alice" 1] } }).1).rows
      = [] ∧
    (Sys.rows { fs := [["data"]], table := some { nextId := 2, rows := [mkRow 1 "Alice" 1] } })
      ≠ [] ∧
    (init_db demoPath
        { fs := [["data"]], table := some { nextId := 2, rows := [mkRow 1 "Alice" 1] } }).2
      = none := by
  refine ⟨?_, by simp [Sys.rows], ?_⟩
  · rw [init_db_ok _ _ (by simp [demoPath])]
    simp [Sys.rows]
  · rw [init_db_ok _ _ (by simp [demoPath])]

/-- C2 (amended): for a db path with a parent directory, `init_db` never
fails, on a second invocation included, but it is destructive: it always
leaves an empty `streamed_messages` table, dropping every stored row. -/
theorem C2_reinit_succeeds_but_drops (p : DBPath) (s : Sys) (hp : p.dirs ≠ []) :
    (init_db p s).2 = none ∧ ((init_db p s).1).rows = [] := by
  rw [init_db_ok p s hp]
  simp [Sys.rows]

theorem C2_witness :
    demoPath.dirs ≠ [] ∧
    (init_db demoPath
        { fs := [["data"]], table := some { nextId := 2, rows := [mkRow 1 "Alice" 1] } }).2
      = none ∧
    ((init_db demoPath
        { fs := [["data"]], table := some { nextId := 2, rows := [mkRow 1 "Alice" 1] } }).1).rows
      = [] := by
  refine ⟨by simp [demoPath], ?_⟩
  exact C2_reinit_succeeds_but_drops demoPath _ (by simp [demoPath])

/-- C10: when the db path has a parent directory, `init_db` creates every
missing ancestor of that directory and succeeds from any starting state:
no error is logged and the table exists afterwards. -/
theorem C10_creates_parent_dirs (p : DBPath) (s : Sys) (hp : p.dirs ≠ []) :
    (init_db p s).2 = none ∧
    ((init_db p s).1).table = some { nextId := 1, rows := [] } ∧
    ∀ k, k < p.dirs.length → p.dirs.take (k + 1) ∈ ((init_db p s).1).fs := by
  rw [init_db_ok p s hp]
  refine ⟨rfl, rfl, ?_⟩
  intro k hk
  exact List.mem_append_left _ (List.mem_map.mpr ⟨k, List.mem_range.mpr hk, rfl⟩)

theorem C10_witness :
    demoPath.dirs ≠ [] ∧
    (init_db demoPath { fs := [], table := none }).2 = none ∧
    ((init_db demoPath { fs := [], table := none }).1).table
      = some { nextId := 1, rows := [] } ∧
    ∀ k, k < demoPath.dirs.length →
      demoPath.dirs.take (k + 1) ∈ ((init_db demoPath { fs := [], table := none }).1).fs := by
  refine ⟨by simp [demoPath], ?_⟩
  exact C10_creates_parent_dirs demoPath { fs := [], table := none } (by simp [demoPath])

/-- C5: `insert_message` is append-only: whatever the state and the message,
the rows afterwards are the rows before with at most one new row appended;
no stored row is modified or removed. -/
theorem C5_append_only (m : RawMessage) (p : DBPath) (s : Sys) :
    ∃ tl, ((insert_message m p s).1).rows = s.rows ++ tl ∧ tl.length ≤ 1 := by
  exact insert_message_rows m p s

/-- C6: every failure of the body of `insert_message` is caught at the
function boundary: the function still returns (a value, not an exception),
the state is left as it was (the event is dropped, not retried) and the
error is handed to the logger. -/
theorem C6_errors_never_escape (m : RawMessage) (p : DBPath) (s : Sys) (e : SqlErr)
    (h : insert_message_body m p s = .error e) :
    insert_message m p s = (s, some e) := by
  exact insert_message_err h

theorem C6_witness :
    insert_message (mkRaw "Alice" 1) demoPath { fs := [], table := none }
      = ({ fs := [], table := none }, some SqlErr.cannotConnect) := by
  exact C6_errors_never_escape (mkRaw "Alice" 1) demoPath { fs := [], table := none }
    SqlErr.cannotConnect rfl

/-- C7: a message missing the `sentiment` key is rejected before any write:
the state is completely unchanged, an error is logged, and the call returns
normally. -/
theorem C7_malformed_rejected (m : RawMessage) (p : DBPath) (s : Sys)
    (h : m.sentiment = none) :
    (insert_message m p s).1 = s ∧ ∃ e, (insert_message m p s).2 = some e := by
  by_cases hconn : p.dirs = [] ∨ p.dirs ∈ s.fs
  · obtain ⟨f, hf⟩ := buildParams_missing h
    have hbody : insert_message_body m p s = .error (.keyError f) := by
      simp [insert_message_body, connect_ok hconn, hf]
    rw [insert_message_err hbody]
    exact ⟨rfl, _, rfl⟩
  · have hbody : insert_message_body m p s = .error .cannotConnect := by
      simp [insert_message_body, connect, hconn]
    rw [insert_message_err hbody]
    exact ⟨rfl, _, rfl⟩

theorem C7_witness :
    ({ mkRaw "Alice" 0 with sentiment := none } : RawMessage).sentiment = none ∧
    (insert_message { mkRaw "Alice" 0 with sentiment := none } demoPath
        { fs := [["data"]], table := some { nextId := 1, rows := [] } }).1
      = { fs := [["data"]], table := some { nextId := 1, rows := [] } } ∧
    ∃ e, (insert_message { mkRaw "Alice" 0 with sentiment := none } demoPath
        { fs := [["data"]], table := some { nextId := 1, rows := [] } }).2 = some e := by
  refine ⟨rfl, ?_, ?_⟩
  · exact (C7_malformed_rejected _ demoPath _ rfl).1
  · exact (C7_malformed_rejected _ demoPath _ rfl).2

/-- C9: deleting an id that no stored row carries is a no-op that reports no
error: the state is returned unchanged and nothing is logged. -/
theorem C9_delete_missing_noop (mid : Nat) (p : DBPath) (s : Sys) (t : Table)
    (hconn : p.dirs = [] ∨ p.dirs ∈ s.fs) (ht : s.table = some t)
    (hmid : ∀ r ∈ t.rows, r.id ≠ mid) :
    delete_message mid p s = (s, none) := by
  have hfil : List.filter (fun r => !decide (r.id = mid)) t.rows = t.rows := by
    rw [List.filter_eq_self]
    intro r hr
    simpa using hmid r hr
  cases s with
  | mk fs tbl =>
    simp only [] at ht
    subst ht
    cases t with
    | mk nid rws =>
      simp only [] at hfil
      simp [delete_message, delete_message_body, connect_ok hconn, hfil]

theorem C9_witness :
    delete_message 99 demoPath { fs := [["data"]], table := some { nextId := 2, rows := [mkRow 1 "Alice" 1] } }
      = ({ fs := [["data"]], table := some { nextId := 2, rows := [mkRow 1 "Alice" 1] } }, none) := by
  exact C9_delete_missing_noop 99 demoPath _ { nextId := 2, rows := [mkRow 1 "Alice" 1] }
    (Or.inr (by simp [demoPath])) rfl (by decide)

/-- C4: starting from a well-formed state, after any sequence of
`insert_message` calls the ids of the stored rows are strictly increasing in
append order, and in particular pairwise distinct. -/
theorem C4_ids_unique_increasing (p : DBPath) (msgs : List RawMessage) (s : Sys)
    (hwf : Sys.WF s) :
    (((insertAll p msgs s).rows).map Row.id).Pairwise (· < ·) ∧
    (((insertAll p msgs s).rows).map Row.id).Nodup := by
  have h2 := @insertAll_wf p msgs s hwf
  have hpw : (((insertAll p msgs s).rows).map Row.id).Pairwise (· < ·) := by
    cases htab : (insertAll p msgs s).table with
    | none => simp [Sys.rows, htab]
    | some t =>
      have hp2 := (h2 t htab).2
      have hrows : (insertAll p msgs s).rows = t.rows := by
        simp [Sys.rows, htab]
      rw [hrows]
      exact List.pairwise_map.mpr hp2
  exact ⟨hpw, List.Pairwise.imp (fun h => Nat.ne_of_lt h) hpw⟩

theorem C4_witness :
    ((((insertAll demoPath [mkRaw "Alice" 1, mkRaw "Bob" 0, mkRaw "Alice" 0]
        { fs := [["data"]], table := some { nextId := 1, rows := [] } }).rows).map Row.id).Pairwise (· < ·) ∧
     (((insertAll demoPath [mkRaw "Alice" 1, mkRaw "Bob" 0, mkRaw "Alice" 0]
        { fs := [["data"]], table := some { nextId := 1, rows := [] } }).rows).map Row.id).Nodup) := by
  apply C4_ids_unique_increasing
  intro t ht
  obtain rfl : ({ nextId := 1, rows := [] } : Table) = t := Option.some_inj.mp ht
  exact ⟨by simp, by simp⟩

theorem tie_avg_alice : avgSentiment tieRows "Alice" = 1 := by
  show ((1:ℚ) + 0) / ((1:ℕ) : ℚ) = 1
  norm_num

theorem tie_avg_bob : avgSentiment tieRows "Bob" = 1 := by
  show ((1:ℚ) + 0) / ((1:ℕ) : ℚ) = 1
  norm_num

theorem validReport_tie : validReport tieRows tieOut := by
  refine ⟨?_, ?_, ?_⟩
  · have : authorsOf tieRows = ["Alice", "Bob"] := by decide
    rw [this]
    show (["Bob", "Alice"] : List String).Perm ["Alice", "Bob"]
    decide
  · intro pr hpr
    rcases List.mem_cons.mp hpr with h | h
    · rw [h]
    · rw [List.mem_singleton.mp h]
  · show List.Pairwise _ [("Bob", avgSentiment tieRows "Bob"), ("Alice", avgSentiment tieRows "Alice")]
    rw [tie_avg_alice, tie_avg_bob]
    simp

/-- C3 (counterexample): on two authors tied at the same average, the output
listing the tied authors in descending author order is among the allowed
result sets of the query, so the report is not guaranteed to break ties by
author ascending: the `ORDER BY` clause orders by average only. -/
theorem C3_counterexample : validReport tieRows tieOut ∧ ¬ tieAsc tieOut := by
  refine ⟨validReport_tie, ?_⟩
  intro hasc
  unfold tieAsc tieOut at hasc
  rw [List.pairwise_cons] at hasc
  have h1 := hasc.1 ("Alice", avgSentiment tieRows "Alice") (List.mem_singleton.mpr rfl)
  rw [tie_avg_alice, tie_avg_bob] at h1
  rcases h1 with h1 | h1
  · exact absurd h1 (lt_irrefl 1)
  · refine absurd h1.2 ?_
    show ¬ ("Bob" < "Alice")
    rw [String.lt_iff_toList_lt]
    decide

/-- C3 (amended): every result set the query allows lists each stored author
exactly once (present iff the author has a stored event, no duplicates),
carries the per-author average sentiment, and is ordered by average
descending; the relative order of authors with equal averages is
unspecified. -/
theorem C3_report_shape (rows : List Row) (out : List (String × ℚ))
    (hout : validReport rows out) :
    (out.map Prod.fst).Nodup ∧
    (∀ a, a ∈ out.map Prod.fst ↔ a ∈ rows.map Row.author) ∧
    (∀ pr ∈ out, pr.2 = avgSentiment rows pr.1) ∧
    out.Pairwise (fun x y => y.2 ≤ x.2) := by
  obtain ⟨hperm, havg, hsort⟩ := hout
  refine ⟨hperm.nodup_iff.mpr (List.nodup_dedup _), ?_, havg, hsort⟩
  intro a
  rw [hperm.mem_iff]
  exact List.mem_dedup

theorem C3_witness :
    ((tieOut.map Prod.fst).Nodup ∧
     (∀ a, a ∈ tieOut.map Prod.fst ↔ a ∈ tieRows.map Row.author) ∧
     (∀ pr ∈ tieOut, pr.2 = avgSentiment tieRows pr.1) ∧
     tieOut.Pairwise (fun x y => y.2 ≤ x.2)) := by
  exact C3_report_shape tieRows tieOut validReport_tie

theorem scenario_rows :
    scenarioSys.rows = [mkRow 1 "Alice" (1/5), mkRow 2 "Bob" (4/5), mkRow 3 "Alice" (3/5)] := by
  rfl

theorem scenario_avg_alice : avgSentiment scenarioSys.rows "Alice" = 2/5 := by
  show ((1:ℚ)/5 + ((3:ℚ)/5 + 0)) / ((2:ℕ) : ℚ) = 2/5
  norm_num

theorem scenario_avg_bob : avgSentiment scenarioSys.rows "Bob" = 4/5 := by
  show ((4:ℚ)/5 + 0) / ((1:ℕ) : ℚ) = 4/5
  norm_num

/-- C8: in the end-to-end scenario — run init_db, then insert (Alice, 0.2),
(Bob, 0.8), (Alice, 0.6) — Alice's aggregate is average 0.4 over 2 events,
Bob's is 0.8 over 1 event, and the only result set the report query allows
is [Bob(0.8), Alice(0.4)]. -/
theorem C8_end_to_end (out : List (String × ℚ)) (hout : validReport scenarioSys.rows out) :
    avgSentiment scenarioSys.rows "Alice" = 2/5 ∧ countAuthor scenarioSys.rows "Alice" = 2 ∧
    avgSentiment scenarioSys.rows "Bob" = 4/5 ∧ countAuthor scenarioSys.rows "Bob" = 1 ∧
    out = [("Bob", 4/5), ("Alice", 2/5)] := by
  refine ⟨scenario_avg_alice, by decide, scenario_avg_bob, by decide, ?_⟩
  obtain ⟨hperm, havg, hsort⟩ := hout
  have hauth : authorsOf scenarioSys.rows = ["Bob", "Alice"] := by decide
  rw [hauth] at hperm
  have hlen : out.length = 2 := by
    have := hperm.length_eq
    simpa using this
  obtain ⟨x, y, hxy⟩ := List.length_eq_two.mp hlen
  subst hxy
  have hmapfst : ([x, y].map Prod.fst) = [x.1, y.1] := rfl
  rw [hmapfst] at hperm
  have hx2 : x.2 = avgSentiment scenarioSys.rows x.1 := havg x (by simp)
  have hy2 : y.2 = avgSentiment scenarioSys.rows y.1 := havg y (by simp)
  have hxmem : x.1 ∈ (["Bob", "Alice"] : List String) := hperm.subset (by simp)
  have hymem : y.1 ∈ (["Bob", "Alice"] : List String) := hperm.subset (by simp)
  have hnd : ([x.1, y.1] : List String).Nodup := hperm.nodup_iff.mpr (by decide)
  have hne : x.1 ≠ y.1 := by
    rcases List.nodup_cons.mp hnd with ⟨h1, _⟩
    intro h
    exact h1 (by simp [h])
  have hsle : y.2 ≤ x.2 := by
    rcases List.pairwise_cons.mp hsort with ⟨h1, _⟩
    exact h1 y (by simp)
  rcases List.mem_cons.mp hxmem with hxB | hxA
  · have hyA : y.1 = "Alice" := by
      rcases List.mem_cons.mp hymem with hyB | hyA
      · exact absurd (hxB.trans hyB.symm) hne
      · exact List.mem_singleton.mp hyA
    have hxval : x = ("Bob", 4/5) := by
      refine Prod.ext hxB ?_
      rw [hx2, hxB, scenario_avg_bob]
    have hyval : y = ("Alice", 2/5) := by
      refine Prod.ext hyA ?_
      rw [hy2, hyA, scenario_avg_alice]
    rw [hxval, hyval]
  · have hxA2 : x.1 = "Alice" := List.mem_singleton.mp hxA
    have hyB : y.1 = "Bob" := by
      rcases List.mem_cons.mp hymem with hyB | hyA
      · exact hyB
      · exact absurd (hxA2.trans (List.mem_singleton.mp hyA).symm) hne
    rw [hx2, hxA2, scenario_avg_alice] at hsle
    rw [hy2, hyB, scenario_avg_bob] at hsle
    norm_num at hsle

theorem C8_witness :
    avgSentiment scenarioSys.rows "Alice" = 2/5 ∧ countAuthor scenarioSys.rows "Alice" = 2 ∧
    avgSentiment scenarioSys.rows "Bob" = 4/5 ∧ countAuthor scenarioSys.rows "Bob" = 1 ∧
    ([("Bob", (4:ℚ)/5), ("Alice", (2:ℚ)/5)] : List (String × ℚ))
      = [("Bob", 4/5), ("Alice", 2/5)] := by
  apply C8_end_to_end
  refine ⟨?_, ?_, ?_⟩
  · have hauth : authorsOf scenarioSys.rows = ["Bob", "Alice"] := by decide
    rw [hauth]
    exact List.Perm.refl _
  · intro pr hpr
    rcases List.mem_cons.mp hpr with h | h
    · rw [h]
      show (4:ℚ)/5 = avgSentiment scenarioSys.rows "Bob"
      rw [scenario_avg_bob]
    · rw [List.mem_singleton.mp h]
      show (2:ℚ)/5 = avgSentiment scenarioSys.rows "Alice"
      rw [scenario_avg_alice]
  · rw [List.pairwise_cons]
    refine ⟨?_, by simp⟩
    intro y hy
    rw [List.mem_singleton.mp hy]
    norm_num
